import Mathlib

/-!
Shallow embedding of `pallets/proposal-router/src/lib.rs` (pallet-proposal-router).

Modelling conventions:
* `AccountId`, `ClubId`, `ProposalId`, block numbers and vote counts are `Nat`
  with explicit saturation at the machine widths used by the source
  (`Votes = u32`, `ProposalId = u64`, block numbers are `u64` as in the mock
  runtime); `satAdd32`/`satMul32`/`satAdd64` model Rust's `saturating_*` ops.
* Storage maps (`Proposals`, `ClubProposals`) are association lists with
  `mapGet`/`mapPut`/`mapDel`.
* Each dispatchable is written in two layers: a `*Raw` function that performs
  storage writes in exactly the source order (so partial writes before a
  failure are visible in the raw result), and a top-level function that wraps
  it in `transactional`, modelling FRAME's transactional dispatch: when a
  dispatchable returns an error, every storage write and every deposited
  event of that call is rolled back.  `StorageMap::try_mutate` additionally
  rolls back its own entry when the closure errs; the raw layer models that
  directly.
* The decode/dispatch of the stored SCALE-encoded call is abstracted by two
  function parameters `dec` (the `Decode` impl of the runtime call) and
  `disp` (dispatching the decoded call; `none` = success, `some bytes` =
  dispatch error with its SCALE-encoded reason).
* The eligibility checks of `propose` and `vote` are TODO comments in the
  source (no code), so the embedding performs no membership check; the
  embedding is of the code as written, not of the comments.
-/

namespace ProposalRouter

def U32MAX : Nat := 4294967295

def U64MAX : Nat := 18446744073709551615

/-- Rust `u32::saturating_add`. -/
def satAdd32 (a b : Nat) : Nat := min (a + b) U32MAX

/-- Rust `u32::saturating_mul`. -/
def satMul32 (a b : Nat) : Nat := min (a * b) U32MAX

/-- Rust `u64::saturating_add` (block numbers and proposal ids). -/
def satAdd64 (a b : Nat) : Nat := min (a + b) U64MAX

/-- `Scope` from the source: club-scoped or global proposals. -/
inductive Scope
  | Club (clubId : Nat)
  | Global
deriving DecidableEq, Repr

/-- `Proposal<T>` from the source.  The Rust field `end` is spelled `end_`
(`end` is a Lean keyword); `call` holds the SCALE-encoded runtime call bytes. -/
structure Proposal where
  id : Nat
  proposer : Nat
  scope : Scope
  call : List Nat
  metadata : Option (List Nat)
  start : Nat
  end_ : Nat
  yea : Nat
  nay : Nat
  executed : Bool
  voters : List Nat
  quorum : Nat
  pass_threshold : Nat
  club : Option Nat
deriving DecidableEq, Repr

/-- The pallet's storage: `NextProposalId`, `Proposals`, `ClubProposals`. -/
structure State where
  next_proposal_id : Nat
  proposals : List (Nat × Proposal)
  club_proposals : List (Nat × List Nat)
deriving DecidableEq, Repr

/-- `Event<T>` from the source. -/
inductive Event
  | ProposalCreated (id proposer : Nat) (is_club_scoped : Bool)
  | Voted (id who : Nat) (aye : Bool) (weight : Nat)
  | ProposalExecuted (id : Nat)
  | ProposalFailed (id : Nat) (reason : List Nat)
  | ProposalCancelled (id : Nat)
deriving DecidableEq, Repr

/-- `Error<T>` from the source, plus `BadOrigin` for a failed origin check
(`ensure_signed` / `ensure_origin`), which in FRAME is `DispatchError::BadOrigin`,
not a pallet error. -/
inductive Err
  | BadOrigin
  | ProposalNotFound
  | VotingClosed
  | AlreadyVoted
  | NotEligibleToPropose
  | NotMember
  | NotClubMember
  | NotAuthorized
  | ProposalAlreadyExecuted
  | ExecutionFailed
  | MetadataTooLarge
  | VotersOverflow
  | ClubIndexOverflow
  | InvalidCallEncoding
  | QuorumNotReached
  | ProposalNotPassed
deriving DecidableEq, Repr

/-- The runtime configuration constants consumed by the pallet
(`MaxMetadataLen`, `MaxVotersPerProposal`, `DefaultVotingPeriod`,
`DefaultQuorum`, `DefaultPassThreshold`); all are `u32` in the source. -/
structure Config where
  max_metadata_len : Nat
  max_voters_per_proposal : Nat
  default_voting_period : Nat
  default_quorum : Nat
  default_pass_threshold : Nat
deriving DecidableEq, Repr

/-- A call origin: a signed account or the root origin
(`RouterAdminOrigin` is `EnsureRoot` in the mock runtime). -/
inductive Origin
  | Signed (who : Nat)
  | Root
deriving DecidableEq, Repr

/-- Result of dispatching one extrinsic: the resulting pallet storage, the
events deposited by the call, and its error, if any. -/
structure Outcome where
  state : State
  events : List Event
  err : Option Err
deriving DecidableEq, Repr

/-- Lookup in an association-list storage map. -/
def mapGet {α : Type} : List (Nat × α) → Nat → Option α
  | [], _ => none
  | (k', v) :: rest, k => if k' = k then some v else mapGet rest k

/-- Insert/overwrite in an association-list storage map. -/
def mapPut {α : Type} : List (Nat × α) → Nat → α → List (Nat × α)
  | [], k, v => [(k, v)]
  | (k', v') :: rest, k, v =>
      if k' = k then (k, v) :: rest else (k', v') :: mapPut rest k v

/-- Remove a key from an association-list storage map. -/
def mapDel {α : Type} : List (Nat × α) → Nat → List (Nat × α)
  | [], _ => []
  | (k', v') :: rest, k =>
      if k' = k then mapDel rest k else (k', v') :: mapDel rest k

/-- FRAME's transactional dispatch layer: if the dispatchable errs, all of its
storage writes and deposited events are rolled back. -/
def transactional (s : State) (o : Outcome) : Outcome :=
  match o.err with
  | some e => ⟨s, [], some e⟩
  | none => o

/-- Body of `propose` in source order (checks, storage writes, event). -/
def proposeRaw (cfg : Config) (s : State) (origin : Origin) (scope : Scope)
    (call : List Nat) (metadata : Option (List Nat))
    (voting_period quorum pass_threshold : Option Nat) (now : Nat) : Outcome :=
  match origin with
  | .Root => ⟨s, [], some .BadOrigin⟩
  | .Signed who =>
    -- eligibility requirement: the source body is only TODO comments; no check
    let mdCheck : Except Err (Option (List Nat)) :=
      match metadata with
      | some md =>
          if md.length ≤ cfg.max_metadata_len then .ok (some md)
          else .error .MetadataTooLarge
      | none => .ok none
    match mdCheck with
    | .error e => ⟨s, [], some e⟩
    | .ok metadata_bounded =>
      let id := s.next_proposal_id
      let start := now
      let period := voting_period.getD cfg.default_voting_period
      let end_ := satAdd64 start period
      let q := quorum.getD cfg.default_quorum
      let pt := pass_threshold.getD cfg.default_pass_threshold
      let p : Proposal :=
        { id := id, proposer := who, scope := scope, call := call,
          metadata := metadata_bounded, start := start, end_ := end_,
          yea := 0, nay := 0, executed := false, voters := [],
          quorum := q, pass_threshold := pt,
          club := match scope with | .Club cid => some cid | .Global => none }
      let s1 : State := { s with proposals := mapPut s.proposals id p }
      match scope with
      | .Club cid =>
        -- `ClubProposals::mutate`: try_push into the (1024-capacity) index
        let push : Except Err (List Nat) :=
          match mapGet s1.club_proposals cid with
          | some v => if v.length < 1024 then .ok (v ++ [id])
                      else .error .ClubIndexOverflow
          | none => if 0 < 1024 then .ok [id] else .error .ClubIndexOverflow
        match push with
        | .error e => ⟨s1, [], some e⟩
        | .ok v' =>
          let s2 : State :=
            { s1 with club_proposals := mapPut s1.club_proposals cid v' }
          ⟨{ s2 with next_proposal_id := satAdd64 id 1 },
            [Event.ProposalCreated id who true], none⟩
      | .Global =>
          ⟨{ s1 with next_proposal_id := satAdd64 id 1 },
            [Event.ProposalCreated id who false], none⟩

/-- The dispatchable `propose`. -/
def propose (cfg : Config) (s : State) (origin : Origin) (scope : Scope)
    (call : List Nat) (metadata : Option (List Nat))
    (voting_period quorum pass_threshold : Option Nat) (now : Nat) : Outcome :=
  transactional s
    (proposeRaw cfg s origin scope call metadata voting_period quorum
      pass_threshold now)

/-- Body of `vote`: a `try_mutate` over the proposal entry; on closure error
nothing is written back. -/
def voteRaw (cfg : Config) (s : State) (origin : Origin) (proposal_id : Nat)
    (aye : Bool) (now : Nat) : Outcome :=
  match origin with
  | .Root => ⟨s, [], some .BadOrigin⟩
  | .Signed who =>
    match mapGet s.proposals proposal_id with
    | none => ⟨s, [], some .ProposalNotFound⟩
    | some p =>
      if p.start ≤ now ∧ now ≤ p.end_ then
        if who ∈ p.voters then ⟨s, [], some .AlreadyVoted⟩
        else
          -- eligibility: the source body is only TODO comments; no check
          let p1 := if aye then { p with yea := satAdd32 p.yea 1 }
                    else { p with nay := satAdd32 p.nay 1 }
          if p1.voters.length < cfg.max_voters_per_proposal then
            let p2 := { p1 with voters := p1.voters ++ [who] }
            let s1 := { s with proposals := mapPut s.proposals proposal_id p2 }
            ⟨s1, [Event.Voted proposal_id who aye 1], none⟩
          else ⟨s, [], some .VotersOverflow⟩
      else ⟨s, [], some .VotingClosed⟩

/-- The dispatchable `vote`. -/
def vote (cfg : Config) (s : State) (origin : Origin) (proposal_id : Nat)
    (aye : Bool) (now : Nat) : Outcome :=
  transactional s (voteRaw cfg s origin proposal_id aye now)

/-- Body of `execute`: a `try_mutate` over the proposal entry.  `dec` models
`<T as Config>::RuntimeCall::decode`, `disp` models dispatching the decoded
call as the pallet account (`none` = `Ok`, `some bytes` = `Err` with the
SCALE-encoded error as `reason`).  On the dispatch-error branch the closure
returns `Err(ExecutionFailed)`, so `try_mutate` does not write the
`executed = true` mutation back; the `ProposalFailed` event was deposited
directly and is visible at the raw layer. -/
def executeRaw {Op : Type} (dec : List Nat → Option Op)
    (disp : Op → Option (List Nat)) (s : State) (origin : Origin)
    (proposal_id : Nat) (now : Nat) : Outcome :=
  match origin with
  | .Root => ⟨s, [], some .BadOrigin⟩
  | .Signed _ =>
    match mapGet s.proposals proposal_id with
    | none => ⟨s, [], some .ProposalNotFound⟩
    | some p =>
      if p.executed then ⟨s, [], some .ProposalAlreadyExecuted⟩
      else if p.end_ < now then
        let total_votes := satAdd32 p.yea p.nay
        if total_votes < p.quorum then ⟨s, [], some .QuorumNotReached⟩
        else
          let pass_percent_x100 :=
            if total_votes = 0 then 0
            else satMul32 p.yea 10000 / total_votes
          if pass_percent_x100 < p.pass_threshold then
            ⟨s, [], some .ProposalNotPassed⟩
          else
            match dec p.call with
            | none => ⟨s, [], some .InvalidCallEncoding⟩
            | some op =>
              match disp op with
              | none =>
                  let p1 := { p with executed := true }
                  let s1 := { s with proposals := mapPut s.proposals proposal_id p1 }
                  ⟨s1, [Event.ProposalExecuted proposal_id], none⟩
              | some err_bytes =>
                  ⟨s, [Event.ProposalFailed proposal_id err_bytes],
                    some .ExecutionFailed⟩
      else ⟨s, [], some .VotingClosed⟩

/-- The dispatchable `execute`. -/
def execute {Op : Type} (dec : List Nat → Option Op)
    (disp : Op → Option (List Nat)) (s : State) (origin : Origin)
    (proposal_id : Nat) (now : Nat) : Outcome :=
  transactional s (executeRaw dec disp s origin proposal_id now)

/-- Body of `cancel`: `RouterAdminOrigin` (root) only; `try_mutate_exists`
takes the record out, then the event is deposited. -/
def cancelRaw (s : State) (origin : Origin) (proposal_id : Nat) : Outcome :=
  match origin with
  | .Signed _ => ⟨s, [], some .BadOrigin⟩
  | .Root =>
    match mapGet s.proposals proposal_id with
    | none => ⟨s, [], some .ProposalNotFound⟩
    | some _ =>
        ⟨{ s with proposals := mapDel s.proposals proposal_id },
          [Event.ProposalCancelled proposal_id], none⟩

/-- The dispatchable `cancel`. -/
def cancel (s : State) (origin : Origin) (proposal_id : Nat) : Outcome :=
  transactional s (cancelRaw s origin proposal_id)

/-- The mock runtime's configuration values. -/
def cfg0 : Config :=
  { max_metadata_len := 256, max_voters_per_proposal := 1024,
    default_voting_period := 10, default_quorum := 1,
    default_pass_threshold := 5000 }

/-- The empty genesis storage of the pallet. -/
def s0 : State := { next_proposal_id := 0, proposals := [], club_proposals := [] }

/-- The per-proposal tally invariant of the spec: `yea + nay = |voters|` and
the voters list has no duplicates. -/
def TallyInv (p : Proposal) : Prop :=
  p.yea + p.nay = p.voters.length ∧ p.voters.Nodup

instance (p : Proposal) : Decidable (TallyInv p) := by
  unfold TallyInv; infer_instance

/-- Every proposal stored in the state satisfies the tally invariant. -/
def StateInv (s : State) : Prop :=
  ∀ kv ∈ s.proposals, TallyInv kv.2

instance (s : State) : Decidable (StateInv s) := by
  unfold StateInv; exact List.decidableBAll _ _

lemma transactional_err (s : State) (o : Outcome) :
    (transactional s o).err = o.err := by
  cases h : o.err <;> simp [transactional, h]

lemma transactional_of_err (s : State) (o : Outcome) {e : Err}
    (h : o.err = some e) : transactional s o = ⟨s, [], some e⟩ := by
  simp [transactional, h]

lemma transactional_of_ok (s : State) (o : Outcome) (h : o.err = none) :
    transactional s o = o := by
  simp [transactional, h]

lemma mapGet_mapPut {α : Type} (m : List (Nat × α)) (k k' : Nat) (v : α) :
    mapGet (mapPut m k v) k' = if k = k' then some v else mapGet m k' := by
  induction m with
  | nil =>
      by_cases h : k = k' <;> simp [mapPut, mapGet, h]
  | cons kv rest ih =>
      obtain ⟨k0, v0⟩ := kv
      by_cases h0 : k0 = k
      · subst h0
        by_cases h : k0 = k' <;> simp [mapPut, mapGet, h]
      · by_cases h : k0 = k'
        · subst h
          have hkk : ¬ k = k0 := fun hr => h0 hr.symm
          simp [mapPut, h0, mapGet, hkk]
        · simp [mapPut, h0, mapGet, h, ih]

lemma mapGet_mapDel {α : Type} (m : List (Nat × α)) (k k' : Nat) :
    mapGet (mapDel m k) k' = if k = k' then none else mapGet m k' := by
  induction m with
  | nil => by_cases h : k = k' <;> simp [mapDel, mapGet, h]
  | cons kv rest ih =>
      obtain ⟨k0, v0⟩ := kv
      by_cases h0 : k0 = k
      · subst h0
        by_cases h : k0 = k'
        · subst h
          simp [mapDel, mapGet, ih]
        · simp [mapDel, mapGet, h, ih]
      · by_cases h : k0 = k'
        · subst h
          have hkk : ¬ k = k0 := fun hr => h0 hr.symm
          simp [mapDel, h0, mapGet, hkk]
        · simp [mapDel, h0, mapGet, h, ih]

lemma mem_of_mapGet {α : Type} {m : List (Nat × α)} {k : Nat} {v : α}
    (h : mapGet m k = some v) : (k, v) ∈ m := by
  induction m with
  | nil => simp [mapGet] at h
  | cons kv rest ih =>
      obtain ⟨k0, v0⟩ := kv
      by_cases h0 : k0 = k
      · subst h0
        simp [mapGet] at h
        simp [h]
      · simp [mapGet, h0] at h
        exact List.mem_cons_of_mem _ (ih h)

lemma mem_mapPut {α : Type} {m : List (Nat × α)} {k : Nat} {v : α}
    {kv : Nat × α} (h : kv ∈ mapPut m k v) : kv = (k, v) ∨ kv ∈ m := by
  induction m with
  | nil => simpa [mapPut] using h
  | cons kv0 rest ih =>
      obtain ⟨k0, v0⟩ := kv0
      by_cases h0 : k0 = k
      · subst h0
        simp [mapPut] at h
        rcases h with h | h
        · exact Or.inl (by simp [h])
        · exact Or.inr (List.mem_cons_of_mem _ h)
      · simp [mapPut, h0] at h
        rcases h with h | h
        · exact Or.inr (by simp [h])
        · rcases ih h with h' | h'
          · exact Or.inl h'
          · exact Or.inr (List.mem_cons_of_mem _ h')

lemma mem_mapDel {α : Type} {m : List (Nat × α)} {k : Nat}
    {kv : Nat × α} (h : kv ∈ mapDel m k) : kv ∈ m := by
  induction m with
  | nil => simp [mapDel] at h
  | cons kv0 rest ih =>
      obtain ⟨k0, v0⟩ := kv0
      by_cases h0 : k0 = k
      · subst h0
        simp [mapDel] at h
        exact List.mem_cons_of_mem _ (ih h)
      · simp [mapDel, h0] at h
        rcases h with h | h
        · simp [h]
        · exact List.mem_cons_of_mem _ (ih h)

lemma satAdd32_eq_of_le {a b : Nat} (h : a + b ≤ U32MAX) :
    satAdd32 a b = a + b := by
  simp [satAdd32, Nat.min_eq_left h]

lemma satAdd32_lt_iff {a b q : Nat} (hq : q ≤ U32MAX) :
    satAdd32 a b < q ↔ a + b < q := by
  unfold satAdd32
  rcases Nat.le_total (a + b) U32MAX with h | h
  · rw [Nat.min_eq_left h]
  · rw [Nat.min_eq_right h]
    omega

lemma satAdd64_ge_left {a b : Nat} (ha : a ≤ U64MAX) : a ≤ satAdd64 a b := by
  unfold satAdd64
  omega

/-- A decoder that always succeeds (the stored bytes decode to a call). -/
def decAny : List Nat → Option Unit := fun _ => some ()

/-- A Ledger dispatch that always fails, with SCALE-encoded error bytes. -/
def dispFail : Unit → Option (List Nat) := fun _ => some [1, 0, 0, 0]

/-- A passed, not-yet-executed global proposal whose window is over at height 100. -/
def pC1 : Proposal :=
  { id := 0, proposer := 3, scope := .Global, call := [7], metadata := none,
    start := 1, end_ := 11, yea := 1, nay := 0, executed := false, voters := [3],
    quorum := 1, pass_threshold := 0, club := none }

def sC1 : State :=
  { next_proposal_id := 1, proposals := [(0, pC1)], club_proposals := [] }

/-- Claim C1 (code bug in `execute`, lines 317-363): the spec says a failed
dispatch still marks `executed = true` and emits `ProposalFailed`, so any
later `execute` hits `ProposalAlreadyExecuted`.  In the code the dispatch-
failure branch returns `Err(ExecutionFailed)` from the `try_mutate` closure,
so the `p.executed = true` write is discarded by `try_mutate` and the
deposited `ProposalFailed` event is rolled back by transactional dispatch:
the call leaves the state unchanged (conjunct 1), `executed` is still
`false` afterwards (conjunct 2), a repeated `execute` fails with
`ExecutionFailed` again, not with `ProposalAlreadyExecuted` (conjunct 3);
the raw body did deposit the `ProposalFailed` event before erroring
(conjunct 4), which shows the code intended the terminal-failure behaviour
the spec describes. -/
theorem execute_failed_dispatch_not_terminal :
    execute decAny dispFail sC1 (.Signed 1) 0 100 = ⟨sC1, [], some .ExecutionFailed⟩
    ∧ (mapGet (execute decAny dispFail sC1 (.Signed 1) 0 100).state.proposals 0).map
        Proposal.executed = some false
    ∧ (execute decAny dispFail
        (execute decAny dispFail sC1 (.Signed 1) 0 100).state (.Signed 1) 0 100).err
        = some .ExecutionFailed
    ∧ (executeRaw decAny dispFail sC1 (.Signed 1) 0 100).events
        = [Event.ProposalFailed 0 [1, 0, 0, 0]] := by
  refine ⟨by decide, by decide, by decide, by decide⟩

/-- A club-scoped proposal of club 0, open for voting at heights 1-11. -/
def pC2 : Proposal :=
  { id := 0, proposer := 3, scope := .Club 0, call := [7], metadata := none,
    start := 1, end_ := 11, yea := 0, nay := 0, executed := false, voters := [],
    quorum := 1, pass_threshold := 5000, club := some 0 }

def sC2 : State :=
  { next_proposal_id := 1, proposals := [(0, pC2)], club_proposals := [(0, [0])] }

/-- Claim C2 (code bug in `propose`/`vote`): both eligibility checks are only
TODO comments in the source, so no membership information is consulted at
all.  Any signed account — the model carries no membership data whatsoever —
can vote on a club proposal (conjunct 1) and submit a club-scoped proposal
(conjunct 2), and neither dispatchable can ever return a membership error
(conjuncts 3 and 4), contradicting the pallet's own doc comments and its
test `club_proposal_eligibility_and_double_vote_prevention`, which expects
`NotClubMember`. -/
theorem no_eligibility_check_performed :
    (vote cfg0 sC2 (.Signed 5) 0 true 1).err = none
    ∧ (propose cfg0 sC2 (.Signed 5) (.Club 0) [7] none none none none 1).err = none
    ∧ (∀ cfg s origin pid aye now,
        (vote cfg s origin pid aye now).err ≠ some .NotMember
        ∧ (vote cfg s origin pid aye now).err ≠ some .NotClubMember)
    ∧ (∀ cfg s origin scope c md vp q pt now,
        (propose cfg s origin scope c md vp q pt now).err ≠ some .NotMember
        ∧ (propose cfg s origin scope c md vp q pt now).err ≠ some .NotClubMember
        ∧ (propose cfg s origin scope c md vp q pt now).err ≠ some .NotEligibleToPropose) := by
  refine ⟨by decide, by decide, ?_, ?_⟩
  · intro cfg s origin pid aye now
    rw [vote, transactional_err]
    cases origin with
    | Root => simp [voteRaw]
    | Signed who =>
      cases h : mapGet s.proposals pid with
      | none => simp [voteRaw, h]
      | some p =>
        simp only [voteRaw, h]
        split
        · split
          · simp
          · split <;> split <;> simp
        · simp
  · intro cfg s origin scope c md vp q pt now
    rw [propose, transactional_err]
    cases origin with
    | Root => simp [proposeRaw]
    | Signed who =>
      cases scope with
      | Global =>
        simp only [proposeRaw]
        split
        · rename_i e heq
          cases md with
          | none => simp at heq
          | some l =>
            by_cases hl : l.length ≤ cfg.max_metadata_len
            · simp [hl] at heq
            · simp [hl] at heq
              subst heq
              simp
        · simp
      | Club cid =>
        simp only [proposeRaw]
        split
        · rename_i e heq
          cases md with
          | none => simp at heq
          | some l =>
            by_cases hl : l.length ≤ cfg.max_metadata_len
            · simp [hl] at heq
            · simp [hl] at heq
              subst heq
              simp
        · split
          · rename_i e heq
            cases hm : mapGet s.club_proposals cid with
            | some v =>
                rw [hm] at heq
                by_cases hv : v.length < 1024
                · simp [hv] at heq
                · simp [hv] at heq
                  subst heq
                  simp
            | none =>
                rw [hm] at heq
                simp at heq
          · simp

lemma exists_mapGet_self {α : Type} (m : List (Nat × α)) (k : Nat) (v : α)
    {P : α → Prop} (hv : P v) : ∃ w, mapGet (mapPut m k v) k = some w ∧ P w :=
  ⟨v, by rw [mapGet_mapPut, if_pos rfl], hv⟩

lemma transactional_ok_inv {s : State} {o : Outcome} {s' : State}
    {evs : List Event} (h : transactional s o = ⟨s', evs, none⟩) :
    o = ⟨s', evs, none⟩ := by
  unfold transactional at h
  cases he : o.err with
  | some e =>
      rw [he] at h
      simp at h
  | none =>
      rw [he] at h
      cases o
      simp_all

/-- Neither the success nor the error of `propose` depends on the supplied
action bytes: the source contains no length check on `call`. -/
lemma propose_err_call_irrel (cfg : Config) (s : State) (origin : Origin)
    (scope : Scope) (c₁ c₂ : List Nat) (md : Option (List Nat))
    (vp q pt : Option Nat) (now : Nat) :
    (propose cfg s origin scope c₁ md vp q pt now).err
      = (propose cfg s origin scope c₂ md vp q pt now).err := by
  rw [propose, propose, transactional_err, transactional_err]
  cases origin with
  | Root => simp [proposeRaw]
  | Signed who =>
    cases scope with
    | Global =>
        simp only [proposeRaw]
        split <;> simp
    | Club cid =>
        simp only [proposeRaw]
        split
        · simp
        · split <;> simp

/-- Claim C3 counterexample: the spec's `ActionTooLarge`/`MaxActionLen`
precondition does not exist in the code: `propose` accepts an action of
length `2^32`, which exceeds every possible value of a `u32` bound such as
the claimed `MaxActionLen`. -/
theorem propose_accepts_oversized_action :
    (propose cfg0 s0 (.Signed 1) .Global (List.replicate 4294967296 0)
        none none none none 1).err = none
    ∧ U32MAX < (List.replicate 4294967296 0).length := by
  constructor
  · rw [propose_err_call_irrel cfg0 s0 (.Signed 1) .Global
      (List.replicate 4294967296 0) [] none none none none 1]
    decide
  · rw [List.length_replicate]
    norm_num [U32MAX]

/-- Claim C3 amended: `propose` performs no length check on the action bytes
at all (there is no `ActionTooLarge` error in the pallet): whether `propose`
succeeds, and with which error it fails, is entirely independent of the
supplied action. -/
theorem propose_action_never_length_checked (cfg : Config) (s : State)
    (origin : Origin) (scope : Scope) (c : List Nat) (md : Option (List Nat))
    (vp q pt : Option Nat) (now : Nat) :
    (propose cfg s origin scope c md vp q pt now).err
      = (propose cfg s origin scope [] md vp q pt now).err :=
  propose_err_call_irrel cfg s origin scope c [] md vp q pt now

/-- Claim C4 counterexample: a `propose` call supplying `voting_period = 0`
succeeds and stores a proposal with `end = start` (both equal to the current
height 5), refuting `end > start` for every successful creation. -/
theorem propose_zero_period_end_eq_start :
    (propose cfg0 s0 (.Signed 1) .Global [] none (some 0) none none 5).err = none
    ∧ (mapGet (propose cfg0 s0 (.Signed 1) .Global [] none (some 0) none none
        5).state.proposals 0).map (fun p => (p.start, p.end_)) = some (5, 5) := by
  refine ⟨by decide, by decide⟩

/-- Claim C4 amended: for every successful `propose` at height `now`
(`now` in `u64` range), the stored proposal has `start = now` and
`end = start.saturating_add(voting_period)` with the supplied period or the
configured default; hence `end ≥ start` always, and `end > start` whenever
the effective period is positive and the addition does not saturate — but a
supplied `voting_period` of `0` yields `end = start`. -/
theorem propose_end_eq_start_plus_period (cfg : Config) (s : State)
    (origin : Origin) (scope : Scope) (c : List Nat) (md : Option (List Nat))
    (vp q pt : Option Nat) (now : Nat) (s' : State) (evs : List Event)
    (hnow : now ≤ U64MAX)
    (h : propose cfg s origin scope c md vp q pt now = ⟨s', evs, none⟩) :
    ∃ p, mapGet s'.proposals s.next_proposal_id = some p
      ∧ p.start = now
      ∧ p.end_ = satAdd64 now (vp.getD cfg.default_voting_period)
      ∧ p.start ≤ p.end_
      ∧ (0 < vp.getD cfg.default_voting_period
          ∧ now + vp.getD cfg.default_voting_period ≤ U64MAX
            → p.start < p.end_) := by
  rw [propose] at h
  have hraw := transactional_ok_inv h
  cases origin with
  | Root => simp [proposeRaw] at hraw
  | Signed who =>
    simp only [proposeRaw] at hraw
    split at hraw
    · simp at hraw
    · split at hraw
      · -- Club scope: split on the index push
        split at hraw
        · simp at hraw
        · rw [Outcome.mk.injEq] at hraw
          obtain ⟨h1, -, -⟩ := hraw
          subst h1
          apply exists_mapGet_self
          refine ⟨rfl, rfl, ?_, ?_⟩
          · exact satAdd64_ge_left hnow
          · rintro ⟨hpos, hno⟩
            show now < satAdd64 now (vp.getD cfg.default_voting_period)
            rw [satAdd64, Nat.min_eq_left hno]
            omega
      · rw [Outcome.mk.injEq] at hraw
        obtain ⟨h1, -, -⟩ := hraw
        subst h1
        apply exists_mapGet_self
        refine ⟨rfl, rfl, ?_, ?_⟩
        · exact satAdd64_ge_left hnow
        · rintro ⟨hpos, hno⟩
          show now < satAdd64 now (vp.getD cfg.default_voting_period)
          rw [satAdd64, Nat.min_eq_left hno]
          omega

/-- Witness for the amended C4 theorem: a concrete successful `propose` with
period 3 at height 5 stores `start = 5`, `end = 8`. -/
theorem propose_end_eq_start_plus_period_witness :
    5 ≤ U64MAX
    ∧ ∃ p, mapGet (propose cfg0 s0 (.Signed 1) .Global [] none (some 3) none
          none 5).state.proposals s0.next_proposal_id = some p
        ∧ p.start = 5
        ∧ p.end_ = satAdd64 5 ((some 3).getD cfg0.default_voting_period)
        ∧ p.start ≤ p.end_
        ∧ (0 < (some 3).getD cfg0.default_voting_period
            ∧ 5 + (some 3).getD cfg0.default_voting_period ≤ U64MAX
              → p.start < p.end_) :=
  ⟨by decide,
    propose_end_eq_start_plus_period cfg0 s0 (.Signed 1) .Global [] none
      (some 3) none none 5 _ _ (by decide) rfl⟩

/-- Claim C6: when the club index of the proposal's club is already at its
capacity of 1024 ids, `propose` fails with `ClubIndexOverflow` and, because
FRAME dispatch is transactional, the whole submission rolls back: the result
is exactly the original state with no events — even though the raw body had
already inserted the proposal record before the index push failed. -/
theorem propose_club_index_overflow_atomic (cfg : Config) (s : State)
    (who cid : Nat) (c : List Nat) (md : Option (List Nat))
    (vp q pt : Option Nat) (now : Nat) (l : List Nat)
    (hmd : ∀ m ∈ md, m.length ≤ cfg.max_metadata_len)
    (hl : mapGet s.club_proposals cid = some l) (hfull : 1024 ≤ l.length) :
    propose cfg s (.Signed who) (.Club cid) c md vp q pt now
      = ⟨s, [], some .ClubIndexOverflow⟩ := by
  rw [propose]
  have hraw : (proposeRaw cfg s (.Signed who) (.Club cid) c md vp q pt
      now).err = some .ClubIndexOverflow := by
    cases md with
    | none => simp [proposeRaw, hl, Nat.not_lt.mpr hfull]
    | some m =>
        have hm : m.length ≤ cfg.max_metadata_len := hmd m rfl
        simp [proposeRaw, hm, hl, Nat.not_lt.mpr hfull]
  exact transactional_of_err s _ hraw

/-- A state whose club-0 index is at its 1024-id capacity. -/
def sC6 : State :=
  { next_proposal_id := 0, proposals := [],
    club_proposals := [(0, List.replicate 1024 99)] }

/-- Witness for C6: at a concrete state whose club-0 index holds 1024 ids, a
club-0 `propose` fails atomically with `ClubIndexOverflow`. -/
theorem propose_club_index_overflow_atomic_witness :
    (∀ m ∈ (none : Option (List Nat)), m.length ≤ cfg0.max_metadata_len)
    ∧ mapGet sC6.club_proposals 0 = some (List.replicate 1024 99)
    ∧ 1024 ≤ (List.replicate 1024 99).length
    ∧ propose cfg0 sC6 (.Signed 1) (.Club 0) [7] none none none none 1
        = ⟨sC6, [], some .ClubIndexOverflow⟩ :=
  ⟨by simp, rfl, by rw [List.length_replicate],
    propose_club_index_overflow_atomic cfg0 sC6 1 0 [7] none none none none 1
      (List.replicate 1024 99) (by simp) rfl (by rw [List.length_replicate])⟩

/-- Claim C7: an account already in a proposal's voters list can never vote
again: the rejected attempt leaves the state unchanged (conjunct 1), always
fails (conjunct 2), and — whenever the call gets past the voting-window
check, which the code runs first — fails precisely with `AlreadyVoted`, for
either `aye` value (conjunct 3). -/
theorem vote_no_double_vote (cfg : Config) (s : State) (who pid : Nat)
    (aye : Bool) (now : Nat) (p : Proposal)
    (hp : mapGet s.proposals pid = some p) (hv : who ∈ p.voters) :
    (vote cfg s (.Signed who) pid aye now).state = s
    ∧ (vote cfg s (.Signed who) pid aye now).err.isSome = true
    ∧ (p.start ≤ now → now ≤ p.end_ →
        vote cfg s (.Signed who) pid aye now = ⟨s, [], some .AlreadyVoted⟩) := by
  rw [vote]
  simp only [voteRaw, hp]
  split
  · exact ⟨rfl, rfl, fun _ _ => rfl⟩
  · rename_i hwin
    exact ⟨rfl, rfl, fun h1 h2 => absurd ⟨h1, h2⟩ hwin⟩

/-- Witness for C7: account 3 already voted on proposal 0 of `sC1`; its
second vote (now with `aye = false`) at in-window height 5 fails with
`AlreadyVoted` and changes nothing. -/
theorem vote_no_double_vote_witness :
    mapGet sC1.proposals 0 = some pC1
    ∧ 3 ∈ pC1.voters
    ∧ ((vote cfg0 sC1 (.Signed 3) 0 false 5).state = sC1
        ∧ (vote cfg0 sC1 (.Signed 3) 0 false 5).err.isSome = true
        ∧ (pC1.start ≤ 5 → 5 ≤ pC1.end_ →
            vote cfg0 sC1 (.Signed 3) 0 false 5 = ⟨sC1, [], some .AlreadyVoted⟩)) :=
  ⟨rfl, by decide, vote_no_double_vote cfg0 sC1 3 0 false 5 pC1 rfl (by decide)⟩

/-- An already-executed global proposal still sitting in storage. -/
def pC5 : Proposal :=
  { id := 0, proposer := 3, scope := .Global, call := [7], metadata := none,
    start := 1, end_ := 11, yea := 1, nay := 0, executed := true, voters := [3],
    quorum := 1, pass_threshold := 0, club := none }

def sC5 : State :=
  { next_proposal_id := 1, proposals := [(0, pC5)], club_proposals := [] }

/-- Claim C5 (code bug in `cancel`, lines 368-376): `cancel` removes the
record at any height but never reads the `executed` flag, so cancelling an
already-executed proposal succeeds, contradicting the function's own doc
comment ("Cancel a proposal before execution") and the spec.  At a state
whose only proposal is already executed (conjunct 1), a root `cancel`
removes it and emits `ProposalCancelled` instead of failing (conjunct 2). -/
theorem cancel_ignores_executed_flag :
    (mapGet sC5.proposals 0).map Proposal.executed = some true
    ∧ cancel sC5 .Root 0
        = ⟨{ sC5 with proposals := [] }, [Event.ProposalCancelled 0], none⟩ := by
  refine ⟨by decide, by decide⟩

/-- A Ledger dispatch that always succeeds. -/
def dispOk : Unit → Option (List Nat) := fun _ => none

/-- A closed proposal with `yea = 500000`, `nay = 0`, `pass_threshold = 10000`
(100%): large enough that `yea.saturating_mul(10_000)` saturates at
`u32::MAX`.  Such tallies are reachable whenever `MaxVotersPerProposal` is
configured at `429497` or more (it is a free `u32` runtime constant). -/
def pC8 : Proposal :=
  { id := 0, proposer := 3, scope := .Global, call := [7], metadata := none,
    start := 1, end_ := 5, yea := 500000, nay := 0, executed := false,
    voters := [], quorum := 1, pass_threshold := 10000, club := none }

def sC8 : State :=
  { next_proposal_id := 1, proposals := [(0, pC8)], club_proposals := [] }

/-- Claim C8 counterexample: the code computes the pass percentage with
`saturating_mul`, not the claim's exact `(yea * 10000) / total`.  With
`yea = 500000, nay = 0, pass_threshold = 10000` the exact formula gives
`10000`, which is not below the threshold, so by the claim `execute` must
not fail with `ProposalNotPassed` — but the code computes
`min(yea * 10000, u32::MAX) / total = 8589 < 10000` and does fail with
`ProposalNotPassed`. -/
theorem execute_threshold_saturates :
    (execute decAny dispOk sC8 (.Signed 1) 0 6).err = some .ProposalNotPassed
    ∧ pC8.yea * 10000 / (pC8.yea + pC8.nay) = 10000
    ∧ ¬ pC8.yea * 10000 / (pC8.yea + pC8.nay) < pC8.pass_threshold := by
  refine ⟨by decide, by decide, by decide⟩

/-- Claim C8 amended: `execute` on an existing, unexecuted proposal after the
window fails with `QuorumNotReached` exactly when `yea + nay < quorum` (this
part holds exactly as claimed, saturation notwithstanding, since
`quorum ≤ u32::MAX`), and otherwise fails with `ProposalNotPassed` exactly
when the pass percentage — computed as `0` for a zero total and as
`yea.saturating_mul(10000) / total` in `u32` arithmetic otherwise — is below
`pass_threshold`; the saturating multiplication coincides with the claim's
exact `(yea * 10000) / total` whenever `yea ≤ 429496`, which covers the
claimed examples (5/5 passes at 5000, 4/6 fails). -/
theorem execute_quorum_and_threshold (Op : Type) (dec : List Nat → Option Op)
    (disp : Op → Option (List Nat)) (s : State) (who pid now : Nat)
    (p : Proposal) (hp : mapGet s.proposals pid = some p)
    (hex : p.executed = false) (hw : p.end_ < now) (hq : p.quorum ≤ U32MAX) :
    ((execute dec disp s (.Signed who) pid now).err = some .QuorumNotReached
        ↔ p.yea + p.nay < p.quorum)
    ∧ (¬ p.yea + p.nay < p.quorum →
        ((execute dec disp s (.Signed who) pid now).err = some .ProposalNotPassed
          ↔ (if satAdd32 p.yea p.nay = 0 then 0
              else satMul32 p.yea 10000 / satAdd32 p.yea p.nay)
            < p.pass_threshold)) := by
  rw [execute, transactional_err]
  simp only [executeRaw, hp, hex, Bool.false_eq_true, if_false, if_pos hw]
  by_cases hquo : satAdd32 p.yea p.nay < p.quorum
  · rw [if_pos hquo]
    have hq' := (satAdd32_lt_iff hq).mp hquo
    exact ⟨by simp [hq'], fun hcon => absurd hq' hcon⟩
  · rw [if_neg hquo]
    have hq' : ¬ p.yea + p.nay < p.quorum :=
      fun hc => hquo ((satAdd32_lt_iff hq).mpr hc)
    refine ⟨?_, fun _ => ?_⟩
    · simp only [hq', iff_false]
      repeat' split
      all_goals simp
    · by_cases hth : (if satAdd32 p.yea p.nay = 0 then 0
          else satMul32 p.yea 10000 / satAdd32 p.yea p.nay) < p.pass_threshold
      · rw [if_pos hth]
        simp [hth]
      · rw [if_neg hth]
        simp only [hth, iff_false]
        repeat' split
        all_goals simp

/-- A closed proposal with the spec's example tally `yea = 5, nay = 5`,
`pass_threshold = 5000`, `quorum = 3`. -/
def pC8w : Proposal :=
  { id := 0, proposer := 3, scope := .Global, call := [7], metadata := none,
    start := 1, end_ := 5, yea := 5, nay := 5, executed := false,
    voters := [], quorum := 3, pass_threshold := 5000, club := none }

def sC8w : State :=
  { next_proposal_id := 1, proposals := [(0, pC8w)], club_proposals := [] }

/-- A closed proposal with the spec's failing example `yea = 4, nay = 6`. -/
def pC8x : Proposal :=
  { id := 0, proposer := 3, scope := .Global, call := [7], metadata := none,
    start := 1, end_ := 5, yea := 4, nay := 6, executed := false,
    voters := [], quorum := 3, pass_threshold := 5000, club := none }

def sC8x : State :=
  { next_proposal_id := 1, proposals := [(0, pC8x)], club_proposals := [] }

/-- Witness for the amended C8 theorem at the spec's own examples: with
`yea = 5, nay = 5, pass_threshold = 5000` the quorum/threshold equivalences
hold (and the call in fact executes: err = none); with `yea = 4, nay = 6`
execute fails with `ProposalNotPassed`. -/
theorem execute_quorum_and_threshold_witness :
    mapGet sC8w.proposals 0 = some pC8w
    ∧ (((execute decAny dispOk sC8w (.Signed 1) 0 6).err
          = some .QuorumNotReached ↔ pC8w.yea + pC8w.nay < pC8w.quorum)
      ∧ (¬ pC8w.yea + pC8w.nay < pC8w.quorum →
          ((execute decAny dispOk sC8w (.Signed 1) 0 6).err
              = some .ProposalNotPassed
            ↔ (if satAdd32 pC8w.yea pC8w.nay = 0 then 0
                else satMul32 pC8w.yea 10000 / satAdd32 pC8w.yea pC8w.nay)
              < pC8w.pass_threshold)))
    ∧ (execute decAny dispOk sC8w (.Signed 1) 0 6).err = none
    ∧ (execute decAny dispOk sC8x (.Signed 1) 0 6).err = some .ProposalNotPassed :=
  ⟨rfl,
    execute_quorum_and_threshold Unit decAny dispOk sC8w 1 0 6 pC8w rfl rfl
      (by decide) (by decide),
    by decide, by decide⟩

/-- Claim C9: (1) a vote at a height strictly below `start` or strictly above
`end` fails with `VotingClosed` and changes nothing; (2) with the other
preconditions (signer not in `voters`, voter list below capacity, a
well-formed window `start ≤ end`), voting exactly at `start` and exactly at
`end` succeeds; (3) `execute` on an existing, unexecuted proposal at any
height `≤ end` fails with the window error `VotingClosed`, whatever the
tallies. -/
theorem voting_window_boundaries :
    (∀ (cfg : Config) (s : State) (who pid : Nat) (aye : Bool) (now : Nat)
        (p : Proposal), mapGet s.proposals pid = some p
        → (now < p.start ∨ p.end_ < now)
        → vote cfg s (.Signed who) pid aye now = ⟨s, [], some .VotingClosed⟩)
    ∧ (∀ (cfg : Config) (s : State) (who pid : Nat) (aye : Bool)
        (p : Proposal), mapGet s.proposals pid = some p
        → who ∉ p.voters
        → p.voters.length < cfg.max_voters_per_proposal
        → p.start ≤ p.end_
        → ((vote cfg s (.Signed who) pid aye p.start).err = none
            ∧ (vote cfg s (.Signed who) pid aye p.end_).err = none))
    ∧ (∀ (Op : Type) (dec : List Nat → Option Op)
        (disp : Op → Option (List Nat)) (s : State) (who pid now : Nat)
        (p : Proposal), mapGet s.proposals pid = some p
        → p.executed = false
        → now ≤ p.end_
        → execute dec disp s (.Signed who) pid now
            = ⟨s, [], some .VotingClosed⟩) := by
  refine ⟨?_, ?_, ?_⟩
  · intro cfg s who pid aye now p hp hout
    have hwin : ¬ (p.start ≤ now ∧ now ≤ p.end_) := by
      rcases hout with h | h <;> omega
    rw [vote]
    simp only [voteRaw, hp]
    rw [if_neg hwin]
    rfl
  · intro cfg s who pid aye p hp hnv hcap hse
    constructor
    · rw [vote, transactional_err]
      simp only [voteRaw, hp]
      rw [if_pos ⟨Nat.le_refl _, hse⟩, if_neg hnv]
      cases aye <;> simp [hcap]
    · rw [vote, transactional_err]
      simp only [voteRaw, hp]
      rw [if_pos ⟨hse, Nat.le_refl _⟩, if_neg hnv]
      cases aye <;> simp [hcap]
  · intro Op dec disp s who pid now p hp hex hle
    rw [execute]
    simp only [executeRaw, hp, hex, Bool.false_eq_true, if_false]
    rw [if_neg (Nat.not_lt.mpr hle)]
    rfl

/-- Witness for C9 on the concrete state `sC2` (window `[1, 11]`): a vote at
height 0 fails with `VotingClosed`; votes exactly at heights 1 and 11 by a
fresh account succeed; `execute` at height 11 (still inside the window)
fails with `VotingClosed`. -/
theorem voting_window_boundaries_witness :
    mapGet sC2.proposals 0 = some pC2
    ∧ (0 < pC2.start ∨ pC2.end_ < 0)
    ∧ vote cfg0 sC2 (.Signed 5) 0 true 0 = ⟨sC2, [], some .VotingClosed⟩
    ∧ 5 ∉ pC2.voters
    ∧ pC2.voters.length < cfg0.max_voters_per_proposal
    ∧ pC2.start ≤ pC2.end_
    ∧ ((vote cfg0 sC2 (.Signed 5) 0 true pC2.start).err = none
        ∧ (vote cfg0 sC2 (.Signed 5) 0 true pC2.end_).err = none)
    ∧ pC2.executed = false
    ∧ 11 ≤ pC2.end_
    ∧ execute decAny dispOk sC2 (.Signed 5) 0 11 = ⟨sC2, [], some .VotingClosed⟩ :=
  ⟨rfl, by decide,
    voting_window_boundaries.1 cfg0 sC2 5 0 true 0 pC2 rfl (by decide),
    by decide, by decide, by decide,
    voting_window_boundaries.2.1 cfg0 sC2 5 0 true pC2 rfl (by decide)
      (by decide) (by decide),
    by decide, by decide,
    voting_window_boundaries.2.2 Unit decAny dispOk sC2 5 0 11 pC2 rfl rfl
      (by decide)⟩

lemma stateInv_transactional {s : State} {o : Outcome} (hs : StateInv s)
    (ho : StateInv o.state) : StateInv (transactional s o).state := by
  cases h : o.err with
  | none => rw [transactional_of_ok s o h]; exact ho
  | some e => rw [transactional_of_err s o h]; exact hs

lemma proposeRaw_inv (cfg : Config) (s : State) (origin : Origin)
    (scope : Scope) (c : List Nat) (md : Option (List Nat))
    (vp q pt : Option Nat) (now : Nat) (hs : StateInv s) :
    StateInv (proposeRaw cfg s origin scope c md vp q pt now).state := by
  cases origin with
  | Root => exact hs
  | Signed who =>
    simp only [proposeRaw]
    split
    · exact hs
    · split
      · split
        · intro kv hkv
          rcases mem_mapPut hkv with rfl | h
          · exact ⟨rfl, List.nodup_nil⟩
          · exact hs kv h
        · intro kv hkv
          rcases mem_mapPut hkv with rfl | h
          · exact ⟨rfl, List.nodup_nil⟩
          · exact hs kv h
      · intro kv hkv
        rcases mem_mapPut hkv with rfl | h
        · exact ⟨rfl, List.nodup_nil⟩
        · exact hs kv h

lemma voteRaw_inv (cfg : Config) (s : State) (origin : Origin)
    (pid : Nat) (aye : Bool) (now : Nat)
    (hcap : cfg.max_voters_per_proposal ≤ U32MAX) (hs : StateInv s) :
    StateInv (voteRaw cfg s origin pid aye now).state := by
  cases origin with
  | Root => exact hs
  | Signed who =>
    cases hp : mapGet s.proposals pid with
    | none => simp only [voteRaw, hp]; exact hs
    | some p =>
      have hinv : TallyInv p := hs (pid, p) (mem_of_mapGet hp)
      cases aye with
      | true =>
        simp only [voteRaw, hp, eq_self_iff_true, if_true]
        split
        · split
          · exact hs
          · rename_i hnv
            split
            · rename_i hlen
              intro kv hkv
              rcases mem_mapPut hkv with rfl | h
              · have hlen' : p.voters.length < cfg.max_voters_per_proposal :=
                  hlen
                have h1 := hinv.1
                refine ⟨?_, ?_⟩
                · show satAdd32 p.yea 1 + p.nay = (p.voters ++ [who]).length
                  have hyea : p.yea + 1 ≤ U32MAX := by omega
                  rw [satAdd32_eq_of_le hyea, List.length_append]
                  simp
                  omega
                · show (p.voters ++ [who]).Nodup
                  refine List.Nodup.append hinv.2 (List.nodup_singleton who) ?_
                  intro x hx hx'
                  rw [List.mem_singleton] at hx'
                  subst hx'
                  exact hnv hx
              · exact hs kv h
            · exact hs
        · exact hs
      | false =>
        simp only [voteRaw, hp, Bool.false_eq_true, if_false]
        split
        · split
          · exact hs
          · rename_i hnv
            split
            · rename_i hlen
              intro kv hkv
              rcases mem_mapPut hkv with rfl | h
              · have hlen' : p.voters.length < cfg.max_voters_per_proposal :=
                  hlen
                have h1 := hinv.1
                refine ⟨?_, ?_⟩
                · show p.yea + satAdd32 p.nay 1 = (p.voters ++ [who]).length
                  have hnay : p.nay + 1 ≤ U32MAX := by omega
                  rw [satAdd32_eq_of_le hnay, List.length_append]
                  simp
                  omega
                · show (p.voters ++ [who]).Nodup
                  refine List.Nodup.append hinv.2 (List.nodup_singleton who) ?_
                  intro x hx hx'
                  rw [List.mem_singleton] at hx'
                  subst hx'
                  exact hnv hx
              · exact hs kv h
            · exact hs
        · exact hs

lemma executeRaw_inv {Op : Type} (dec : List Nat → Option Op)
    (disp : Op → Option (List Nat)) (s : State) (origin : Origin)
    (pid now : Nat) (hs : StateInv s) :
    StateInv (executeRaw dec disp s origin pid now).state := by
  cases origin with
  | Root => exact hs
  | Signed who =>
    cases hp : mapGet s.proposals pid with
    | none => simp only [executeRaw, hp]; exact hs
    | some p =>
      simp only [executeRaw, hp]
      repeat' split
      all_goals first
        | exact hs
        | (intro kv hkv
           rcases mem_mapPut hkv with rfl | h
           exacts [hs (pid, p) (mem_of_mapGet hp), hs kv h])

lemma cancelRaw_inv (s : State) (origin : Origin) (pid : Nat)
    (hs : StateInv s) : StateInv (cancelRaw s origin pid).state := by
  cases origin with
  | Signed who => exact hs
  | Root =>
    cases hp : mapGet s.proposals pid with
    | none => simp only [cancelRaw, hp]; exact hs
    | some p =>
      simp only [cancelRaw, hp]
      intro kv hkv
      exact hs kv (mem_mapDel hkv)

/-- Claim C10: the spec invariant — `yea + nay = |voters|` and a
duplicate-free voters list for every stored proposal — is preserved by each
of the four dispatchables (`propose`, `vote`, `execute`, `cancel`), for any
arguments and any origin, given the configured voter capacity fits in `u32`
(it is a `u32` constant in the runtime). -/
theorem tally_invariant_preserved (cfg : Config) (s : State)
    (hcap : cfg.max_voters_per_proposal ≤ U32MAX) (hs : StateInv s) :
    (∀ (origin : Origin) (scope : Scope) (c : List Nat)
        (md : Option (List Nat)) (vp q pt : Option Nat) (now : Nat),
        StateInv (propose cfg s origin scope c md vp q pt now).state)
    ∧ (∀ (origin : Origin) (pid : Nat) (aye : Bool) (now : Nat),
        StateInv (vote cfg s origin pid aye now).state)
    ∧ (∀ (Op : Type) (dec : List Nat → Option Op)
        (disp : Op → Option (List Nat)) (origin : Origin) (pid now : Nat),
        StateInv (execute dec disp s origin pid now).state)
    ∧ (∀ (origin : Origin) (pid : Nat),
        StateInv (cancel s origin pid).state) :=
  ⟨fun origin scope c md vp q pt now =>
      stateInv_transactional hs
        (proposeRaw_inv cfg s origin scope c md vp q pt now hs),
    fun origin pid aye now =>
      stateInv_transactional hs (voteRaw_inv cfg s origin pid aye now hcap hs),
    fun _ dec disp origin pid now =>
      stateInv_transactional hs (executeRaw_inv dec disp s origin pid now hs),
    fun origin pid =>
      stateInv_transactional hs (cancelRaw_inv s origin pid hs)⟩

/-- Witness for C10: at the concrete state `sC2` (which satisfies the
invariant) the invariant still holds after a `propose`, a fresh `vote`, an
`execute` attempt and a `cancel`. -/
theorem tally_invariant_preserved_witness :
    cfg0.max_voters_per_proposal ≤ U32MAX
    ∧ StateInv sC2
    ∧ (StateInv (propose cfg0 sC2 (.Signed 5) .Global [] none none none none
          2).state
        ∧ StateInv (vote cfg0 sC2 (.Signed 5) 0 true 2).state
        ∧ StateInv (execute decAny dispOk sC2 (.Signed 5) 0 20).state
        ∧ StateInv (cancel sC2 .Root 0).state) :=
  ⟨by decide, by decide,
    (tally_invariant_preserved cfg0 sC2 (by decide) (by decide)).1
      (.Signed 5) .Global [] none none none none 2,
    (tally_invariant_preserved cfg0 sC2 (by decide) (by decide)).2.1
      (.Signed 5) 0 true 2,
    (tally_invariant_preserved cfg0 sC2 (by decide) (by decide)).2.2.1
      Unit decAny dispOk (.Signed 5) 0 20,
    (tally_invariant_preserved cfg0 sC2 (by decide) (by decide)).2.2.2
      .Root 0⟩

end ProposalRouter
